import Mathlib

/-!
Verification model of the Kuppam revenue/load forecasting pipeline
(`ra2.py`).  The numeric pipeline is embedded shallowly over `ℚ`:

* array/index manipulations (lag-column construction, slice assignment,
  the recursive block loop, the date table) are translated literally
  from the source;
* the external statistical library calls (`statsmodels.pacf`,
  `statsmodels.STL`, the random-forest `fit`/`predict`,
  Holt exponential smoothing) are abstracted as oracle functions,
  since only the surrounding index logic is the object of the claims;
* Python floats are modelled as rationals;
* fallible steps (the train-date lookup, whose failure raises an
  unhandled exception in the source) are modelled with `Option`, and
  the file write at the end of the script is modelled as the `some`
  payload of the script-level result.
-/

namespace Kuppam

/-- The fixed forecast block size (`Step_size = 12` in `Forecasting_Func`). -/
def Step_size : ℕ := 12

/-- Model of line 57, `tr_Ind = int(np.where(<DateTime column>==Traindate)[0])`.  `np.where` returns every matching row index; `int(...)`
succeeds only on a size-1 array and raises otherwise, so the lookup is
modelled as `some i` exactly when the date string matches a unique row,
and `none` (an unhandled exception) otherwise. -/
def tr_Ind_lookup (dates : List String) (traindate : String) : Option ℕ :=
  match (List.range dates.length).filter (fun i => dates.getD i "" = traindate) with
  | [i] => some i
  | _ => none

/-- The comparison key of the `sorted(..., key=lambda k: corrcoef[k])` call
at line 79: index `a` sorts no later than index `b` when the raw (signed)
coefficient at `a` is at most the one at `b`. -/
def keyLE (coeffs : List ℚ) (a b : ℕ) : Prop :=
  coeffs.getD a 0 ≤ coeffs.getD b 0

instance (coeffs : List ℚ) : DecidableRel (keyLE coeffs) := fun a b => by
  unfold keyLE
  infer_instance

instance (coeffs : List ℚ) : IsTotal ℕ (keyLE coeffs) :=
  ⟨fun _ _ => le_total _ _⟩

instance (coeffs : List ℚ) : IsTrans ℕ (keyLE coeffs) :=
  ⟨fun _ _ _ => le_trans⟩

/-- Model of `ImpLags = sorted(range(len(corrcoef)), key=lambda k: corrcoef[k])`
(line 79): the lag indices `0 .. len-1` ranked in ascending order of the
raw (signed) coefficient value.  The `sorted` builtin of Python is a
stable ascending sort, as is the `insertionSort` of Mathlib. -/
def sortIdxAsc (coeffs : List ℚ) : List ℕ :=
  List.insertionSort (keyLE coeffs) (List.range coeffs.length)

/-- Model of lines 92-95: `ImpLags1 = ImpLags[ImpLags > Step_size]` followed by
`ImpLags1 = ImpLags1[0:n]` with `n = 5`.  Lags come out ranked ascending by
raw partial-autocorrelation value, filtered to those strictly greater
than 12, truncated to at most five. -/
def lagSelect (coeffs : List ℚ) : List ℕ :=
  ((sortIdxAsc coeffs).filter (fun l => 12 < l)).take 5

/-- Model of the zero-padded lag column built by
`ARData[ImpLags1[r]:LGT1, r] = Y_tr[0:(LGT1-ImpLags1[r])]` (line 109, and
identically `ARF` at line 152): a column of the same length as `y`,
zero below row `lag`, and equal to `y[i - lag]` from row `lag` on.
(The numpy slice assignment it models is shape-correct exactly when
`lag ≤ len(y)`, which holds in every reachable use.) -/
def arColumn (y : List ℚ) (lag : ℕ) : List ℚ :=
  (List.range y.length).map (fun i => if lag ≤ i then y.getD (i - lag) 0 else 0)

/-- Model of a numpy in-place slice assignment `l[start : start+len(vals)] = vals`
on a 1-D array: positions `start ≤ j < start + vals.length` take the new
values, all others keep the old ones, and the length is unchanged.
(The source only performs such writes with the slice fully in bounds.) -/
def setRange (l : List ℚ) (start : ℕ) (vals : List ℚ) : List ℚ :=
  (List.range l.length).map (fun j =>
    if start ≤ j ∧ j - start < vals.length then vals.getD (j - start) 0 else l.getD j 0)

/-- One regression feature row (line 113 during training, line 157 during
forecasting): the exogenous climate covariates of row `i` followed by the
autoregressive features `Y`-lagged by each selected lag, read at row `i`. -/
def featRow (X : ℕ → List ℚ) (lags : List ℕ) (Y : List ℚ) (i : ℕ) : List ℚ :=
  X i ++ lags.map (fun L => (arColumn Y L).getD i 0)

/-- State threaded through the recursive forecasting loop of lines 133-173:
the working detrended array `Y`, the residual `Forecasts` array, and the
moving train index `tr_Ind`. -/
structure LoopState where
  Y : List ℚ
  Forecasts : List ℚ
  tr_Ind : ℕ
deriving Repr

/-- The raw regressor prediction for row `i` of the current block
(line 160): the model applied to the feature row at position
`tr_Ind + 1 + i` of the working array extended by 12 placeholder zeros. -/
def blockPred (X : ℕ → List ℚ) (lags : List ℕ) (predict : List ℚ → ℚ)
    (st : LoopState) (i : ℕ) : ℚ :=
  predict (featRow X lags (st.Y ++ List.replicate Step_size 0) (st.tr_Ind + 1 + i))

/-- One iteration `s` of the loop at lines 133-173: extend `Y` by 12
placeholder zeros, rebuild every lag column over the extended array, take
the feature rows of the next 12 positions, predict, apply the growth
adjustment `y_pred + y_pred*(Step_size/12*cgr)` (line 165), write the
adjusted block into `Forecasts[s*12 : (s+1)*12]` (line 169) and into the
working array at the placeholder positions (line 171), and advance
`tr_Ind` by 12 (line 173). -/
def forecastStep (X : ℕ → List ℚ) (lags : List ℕ) (predict : List ℚ → ℚ)
    (cgr : ℚ) (st : LoopState) (s : ℕ) : LoopState :=
  let Y1 := st.Y ++ List.replicate Step_size 0
  let y_pred := (List.range Step_size).map (fun i =>
    let p := predict (featRow X lags Y1 (st.tr_Ind + 1 + i))
    p + p * ((Step_size : ℚ) / 12 * cgr))
  { Y := setRange Y1 (st.tr_Ind + 1) y_pred
    Forecasts := setRange st.Forecasts (s * Step_size) y_pred
    tr_Ind := st.tr_Ind + Step_size }

/-- The loop `for s in range(0, nSteps)` of line 133. -/
def forecastRun (X : ℕ → List ℚ) (lags : List ℕ) (predict : List ℚ → ℚ)
    (cgr : ℚ) (init : LoopState) (n : ℕ) : LoopState :=
  (List.range n).foldl (fun st s => forecastStep X lags predict cgr st s) init

/-- Model of `nSteps = int(ForecastHorizon/Step_size)` (line 66): floor
division for a nonnegative horizon. -/
def nSteps (ForecastHorizon : ℕ) : ℕ := ForecastHorizon / Step_size

/-- Auxiliary recurrence of `pandas` `ewm(span, adjust=False).mean()`:
`y_i = (1-a) * y_{i-1} + a * x_i` with smoothing factor `a = 2/(span+1)`. -/
def ewmAux (a prev : ℚ) : List ℚ → List ℚ
  | [] => []
  | x :: xs =>
    let y := (1 - a) * prev + a * x
    y :: ewmAux a y xs

/-- Model of `series.ewm(span, adjust=False).mean()` with factor
`a = 2/(span+1)`: the first output equals the first input, each later
output is the exponentially weighted recurrence. -/
def ewm (a : ℚ) : List ℚ → List ℚ
  | [] => []
  | x :: xs => x :: ewmAux a x xs

/-- Oracle bundle for the external statistical library calls that the
source delegates to: `pacf(.., nlags=48)` (line 78), the STL trend
extraction `STL(load, period=12).fit().trend` (lines 85-87), the
random-forest `fit` (line 127) returning a trained `predict` function,
and `stl_holt_trend_forecast` (lines 35-48, of which only the returned
`future` component is consumed) producing a horizon-length trend
extrapolation. -/
structure Oracles where
  pacfFn : List ℚ → List ℚ
  stlTrendFn : List ℚ → List ℚ
  fit : List (List ℚ) → List ℚ → (List ℚ → ℚ)
  stlHoltForecast : List ℚ → ℕ → List ℚ

/-- The lag set actually computed by `Forecasting_Func` (lines 74-95):
partial autocorrelation is taken of `Y_tr = Target.iloc[0:tr_Ind+1]` as it
stands at line 78, i.e. of the raw training target — the subtraction of
the STL trend only happens afterwards at line 89. -/
def ImpLags1_of (O : Oracles) (Target : List ℚ) (tr_Ind : ℕ) : List ℕ :=
  lagSelect (O.pacfFn (Target.take (tr_Ind + 1)))

/-- Modelled from the spec: the lag-selection rule as §4.3 words it, with
the partial autocorrelation computed over the detrended training target
(the training series minus its STL trend).  Declared only to compare the
spec text against `ImpLags1_of`, which follows the source. -/
def ImpLags1_specDetrended (O : Oracles) (Target : List ℚ) (tr_Ind : ℕ) : List ℕ :=
  let raw := Target.take (tr_Ind + 1)
  lagSelect (O.pacfFn (List.zipWith (fun a b => a - b) raw (O.stlTrendFn raw)))

/-- Shallow embedding of `Forecasting_Func` (lines 54-219), forecasting
mode (`Train = 0`): look up the train index from the date string (`none`
models the unhandled exception of line 57), restrict to the training
window, rank and select lags from the raw training target, detrend with
the STL trend, build the training matrix and fit, run the recursive
block loop `nSteps` times on the residual series, smooth the trend with
the two cascaded `ewm` passes of line 183 (spans 6 and 12, factors 2/7
and 2/13), extrapolate it, and return residual forecasts plus trend
forecast (line 189). -/
def Forecasting_Func (O : Oracles) (Target : List ℚ) (X : ℕ → List ℚ)
    (climDates : List String) (ForecastHorizon : ℕ) (Traindate : String)
    (cgr : ℚ) : Option (List ℚ) :=
  match tr_Ind_lookup climDates Traindate with
  | none => none
  | some tr_Ind =>
    let Y_tr_raw := Target.take (tr_Ind + 1)
    let ImpLags1 := ImpLags1_of O Target tr_Ind
    let trend := O.stlTrendFn Y_tr_raw
    let Y_tr := List.zipWith (fun a b => a - b) Y_tr_raw trend
    let X_tr := (List.range (tr_Ind + 1)).map (fun i => featRow X ImpLags1 Y_tr i)
    let predict := O.fit X_tr Y_tr
    let fin := forecastRun X ImpLags1 predict cgr
      ⟨Y_tr, List.replicate ForecastHorizon 0, tr_Ind⟩ (nSteps ForecastHorizon)
    let smooth_trend := ewm (2/13) (ewm (2/7) trend)
    let future_trend := O.stlHoltForecast smooth_trend ForecastHorizon
    some (List.zipWith (fun a b => a + b) fin.Forecasts future_trend)

/-- Month-resolution date (`day` is carried because the output dates are
first-of-month stamps). -/
structure MDate where
  year : ℕ
  month : ℕ
  day : ℕ
deriving DecidableEq, Repr

/-- Absolute month number of a date, counting months since year 0. -/
def monthIndex (d : MDate) : ℕ := 12 * d.year + (d.month - 1)

/-- First day of the month with absolute month number `k`. -/
def monthStart (k : ℕ) : MDate := ⟨k / 12, k % 12 + 1, 1⟩

/-- Model of lines 269-273: `start = (Traindate + DateOffset(months=1)).replace(day=1)`
followed by `pd.date_range(start, periods=ForecastHorizon, freq=MS)` —
`ForecastHorizon` consecutive month-start dates beginning the month after
the train-cutoff date. -/
def TestDates (traindate : MDate) (ForecastHorizon : ℕ) : List MDate :=
  let start := monthStart (monthIndex traindate + 1)
  (List.range ForecastHorizon).map (fun i => monthStart (monthIndex start + i))

/-- Model of the per-column loop of lines 285-293: run `Forecasting_Func`
for each target column in order, collecting named prediction columns;
any failing column aborts the whole script (`none`), since the exception
is unhandled. -/
def scriptColumns (O : Oracles) (targets : List (String × List ℚ))
    (X : ℕ → List ℚ) (climDates : List String) (ForecastHorizon : ℕ)
    (Traindate : String) (cgr : ℚ) : Option (List (String × List ℚ)) :=
  targets.foldr (fun p acc =>
    match Forecasting_Func O p.2 X climDates ForecastHorizon Traindate cgr, acc with
    | some f, some rest => some ((p.1, f) :: rest)
    | _, _ => none) (some [])

/-- Model of the script tail (lines 269-300) in forecasting mode: the
written `New_Load_Forecast.csv` is the `some` payload — the `TestDates`
column plus one prediction column per target category.  A `none` result
models the script dying on an unhandled exception with no file written. -/
def scriptRun (O : Oracles) (targets : List (String × List ℚ))
    (X : ℕ → List ℚ) (climDates : List String) (ForecastHorizon : ℕ)
    (Traindate : String) (traindateParsed : MDate) (cgr : ℚ) :
    Option (List MDate × List (String × List ℚ)) :=
  (scriptColumns O targets X climDates ForecastHorizon Traindate cgr).map
    (fun cols => (TestDates traindateParsed ForecastHorizon, cols))

/-- The input tables as state threaded through per-column calls: the
historical target table, the climate covariate rows (already including
the derived flag columns of lines 245-257), and the climate date column. -/
structure RunState where
  TargetTab : List (String × List ℚ)
  climX : ℕ → List ℚ
  climDates : List String

/-- State-passing form of one per-column call of `Forecasting_Func`
(lines 285-293).  Every in-place write the source performs
(`ARData[..]=`, `ARF[..]=`, `Forecasts[..]=`, `Y[..]=`) targets an array
freshly created inside the function by `np.zeros` or `np.concatenate`
(which copies); no statement of lines 54-219 assigns into `Target` or
`climate`, so the faithful effect of a call on the table state is the
identity, recorded by returning the state unchanged. -/
def Forecasting_FuncS (O : Oracles) (var : String) (ForecastHorizon : ℕ)
    (Traindate : String) (cgr : ℚ) (st : RunState) :
    Option (List ℚ) × RunState :=
  (Forecasting_Func O ((List.lookup var st.TargetTab).getD []) st.climX
    st.climDates ForecastHorizon Traindate cgr, st)

/-! Helper lemmas about the list primitives of the embedding. -/

lemma getD_map_range (f : ℕ → ℚ) (n j : ℕ) :
    ((List.range n).map f).getD j 0 = if j < n then f j else 0 := by
  rcases Nat.lt_or_ge j n with h | h
  · rw [List.getD_eq_getElem?_getD, List.getElem?_map, List.getElem?_range h]
    simp [h]
  · rw [List.getD_eq_getElem?_getD, List.getElem?_eq_none (by simpa using h)]
    simp [Nat.not_lt.mpr h]

lemma getD_replicate_zero (n j : ℕ) : (List.replicate n (0:ℚ)).getD j 0 = 0 := by
  rw [List.getD_eq_getElem?_getD, List.getElem?_replicate]
  split <;> rfl

lemma length_setRange (l vals : List ℚ) (start : ℕ) :
    (setRange l start vals).length = l.length := by
  simp [setRange]

lemma getD_setRange_in (l vals : List ℚ) (start j : ℕ) (h1 : start ≤ j)
    (h2 : j - start < vals.length) (h3 : j < l.length) :
    (setRange l start vals).getD j 0 = vals.getD (j - start) 0 := by
  rw [setRange, getD_map_range, if_pos h3, if_pos ⟨h1, h2⟩]

lemma getD_setRange_out (l vals : List ℚ) (start j : ℕ)
    (h : ¬(start ≤ j ∧ j - start < vals.length)) :
    (setRange l start vals).getD j 0 = l.getD j 0 := by
  rw [setRange, getD_map_range]
  rcases Nat.lt_or_ge j l.length with h3 | h3
  · rw [if_pos h3, if_neg h]
  · rw [if_neg (Nat.not_lt.mpr h3), List.getD_eq_getElem?_getD,
      List.getElem?_eq_none (by simpa using h3)]
    rfl

lemma getD_append_replicate_zero (Y : List ℚ) (k j : ℕ) :
    (Y ++ List.replicate k (0:ℚ)).getD j 0 = Y.getD j 0 := by
  rcases Nat.lt_or_ge j Y.length with h | h
  · rw [List.getD_eq_getElem?_getD, List.getElem?_append_left h,
      List.getD_eq_getElem?_getD]
  · rw [List.getD_eq_getElem?_getD, List.getElem?_append_right h,
      List.getElem?_replicate, List.getD_eq_getElem?_getD,
      List.getElem?_eq_none (by simpa using h)]
    split <;> rfl

lemma getD_arColumn (y : List ℚ) (L j : ℕ) :
    (arColumn y L).getD j 0 =
      if L ≤ j ∧ j < y.length then y.getD (j - L) 0 else 0 := by
  rw [arColumn, getD_map_range]
  rcases Nat.lt_or_ge j y.length with h | h
  · rw [if_pos h]
    by_cases hL : L ≤ j
    · rw [if_pos hL, if_pos ⟨hL, h⟩]
    · rw [if_neg hL, if_neg (fun hc => hL hc.1)]
  · rw [if_neg (Nat.not_lt.mpr h), if_neg (fun hc => (Nat.not_lt.mpr h) hc.2)]

lemma length_arColumn (y : List ℚ) (L : ℕ) : (arColumn y L).length = y.length := by
  simp [arColumn]

/-! Helper lemmas about one block of the recursive forecaster. -/

/-- The growth line of the source, `y_pred + y_pred*(Step_size/12*cgr)`
(line 165), reduces to multiplication by `1 + cgr` because the block size
is exactly 12. -/
lemma growth_formula (p cgr : ℚ) :
    p + p * ((Step_size : ℚ) / 12 * cgr) = (1 + cgr) * p := by
  norm_num [Step_size]
  ring

lemma forecastStep_Y_length (X : ℕ → List ℚ) (lags : List ℕ)
    (predict : List ℚ → ℚ) (cgr : ℚ) (st : LoopState) (s : ℕ) :
    (forecastStep X lags predict cgr st s).Y.length = st.Y.length + Step_size := by
  simp [forecastStep, length_setRange]

lemma forecastStep_Forecasts_length (X : ℕ → List ℚ) (lags : List ℕ)
    (predict : List ℚ → ℚ) (cgr : ℚ) (st : LoopState) (s : ℕ) :
    (forecastStep X lags predict cgr st s).Forecasts.length = st.Forecasts.length := by
  simp [forecastStep, length_setRange]

lemma forecastStep_tr_Ind (X : ℕ → List ℚ) (lags : List ℕ)
    (predict : List ℚ → ℚ) (cgr : ℚ) (st : LoopState) (s : ℕ) :
    (forecastStep X lags predict cgr st s).tr_Ind = st.tr_Ind + Step_size := rfl

/-- Position `s*12 + i` of the residual array after block `s` holds the
growth-adjusted value of the raw prediction for row `i` of the block. -/
lemma forecastStep_Forecasts_getD (X : ℕ → List ℚ) (lags : List ℕ)
    (predict : List ℚ → ℚ) (cgr : ℚ) (st : LoopState) (s i : ℕ)
    (hi : i < Step_size) (hF : s * Step_size + i < st.Forecasts.length) :
    (forecastStep X lags predict cgr st s).Forecasts.getD (s * Step_size + i) 0 =
      (1 + cgr) * blockPred X lags predict st i := by
  rw [forecastStep]
  rw [getD_setRange_in _ _ _ _ (Nat.le_add_right _ _)
    (by simpa [Nat.add_sub_cancel_left] using hi) hF]
  rw [Nat.add_sub_cancel_left, getD_map_range, if_pos hi, blockPred, growth_formula]

/-- Position `tr_Ind + 1 + i` of the working array after a block holds the
same growth-adjusted value (the placeholder positions are overwritten with
adjusted, not raw, predictions). -/
lemma forecastStep_Y_getD (X : ℕ → List ℚ) (lags : List ℕ)
    (predict : List ℚ → ℚ) (cgr : ℚ) (st : LoopState) (s i : ℕ)
    (hi : i < Step_size) (hY : st.Y.length = st.tr_Ind + 1) :
    (forecastStep X lags predict cgr st s).Y.getD (st.tr_Ind + 1 + i) 0 =
      (1 + cgr) * blockPred X lags predict st i := by
  rw [forecastStep]
  rw [getD_setRange_in _ _ _ _ (Nat.le_add_right _ _)
    (by simpa [Nat.add_sub_cancel_left] using hi)
    (by have hs : Step_size = 12 := rfl; simp [hY]; omega)]
  rw [Nat.add_sub_cancel_left, getD_map_range, if_pos hi, blockPred, growth_formula]

/-- A block leaves every residual position at or beyond `(s+1)*12` untouched. -/
lemma forecastStep_Forecasts_getD_of_le (X : ℕ → List ℚ) (lags : List ℕ)
    (predict : List ℚ → ℚ) (cgr : ℚ) (st : LoopState) (s j : ℕ)
    (h : (s + 1) * Step_size ≤ j) :
    (forecastStep X lags predict cgr st s).Forecasts.getD j 0 =
      st.Forecasts.getD j 0 := by
  rw [forecastStep]
  apply getD_setRange_out
  simp only [List.length_map, List.length_range]
  rintro ⟨h1, h2⟩
  simp only [Step_size] at h h1 h2
  omega

lemma forecastRun_zero (X : ℕ → List ℚ) (lags : List ℕ)
    (predict : List ℚ → ℚ) (cgr : ℚ) (init : LoopState) :
    forecastRun X lags predict cgr init 0 = init := rfl

lemma forecastRun_succ (X : ℕ → List ℚ) (lags : List ℕ)
    (predict : List ℚ → ℚ) (cgr : ℚ) (init : LoopState) (n : ℕ) :
    forecastRun X lags predict cgr init (n + 1) =
      forecastStep X lags predict cgr (forecastRun X lags predict cgr init n) n := by
  simp [forecastRun, List.range_succ]

/-- No block of an `n`-block run ever writes a residual position at or
beyond `n*12`. -/
lemma forecastRun_Forecasts_getD_of_le (X : ℕ → List ℚ) (lags : List ℕ)
    (predict : List ℚ → ℚ) (cgr : ℚ) (init : LoopState) (n j : ℕ)
    (h : n * Step_size ≤ j) :
    (forecastRun X lags predict cgr init n).Forecasts.getD j 0 =
      init.Forecasts.getD j 0 := by
  induction n with
  | zero => rfl
  | succ n ih =>
    rw [forecastRun_succ, forecastStep_Forecasts_getD_of_le _ _ _ _ _ _ _ h]
    exact ih (le_trans (by simp only [Step_size]; omega) h)

/-! Claim theorems. -/

/-- C1: in every block of the recursive forecaster the 12 regressor
predictions are multiplied by `1 + growth_rate` (the `Step_size/12`-scaled
term of line 165 reduces to the full annual rate because the block size is
exactly 12), and these growth-adjusted values — not the raw predictions —
are written both into the working detrended array at the placeholder
positions (so subsequent blocks read them through the recomputed lag
features) and into the residual Forecasts array at offset `s*12`. -/
theorem C1_growth_adjusted_block_writes (X : ℕ → List ℚ) (lags : List ℕ)
    (predict : List ℚ → ℚ) (cgr : ℚ) (st : LoopState) (s i : ℕ)
    (hi : i < Step_size) (hY : st.Y.length = st.tr_Ind + 1)
    (hF : s * Step_size + i < st.Forecasts.length) :
    (∀ p : ℚ, p + p * ((Step_size : ℚ) / 12 * cgr) = (1 + cgr) * p)
    ∧ (forecastStep X lags predict cgr st s).Forecasts.getD (s * Step_size + i) 0 =
        (1 + cgr) * blockPred X lags predict st i
    ∧ (forecastStep X lags predict cgr st s).Y.getD (st.tr_Ind + 1 + i) 0 =
        (1 + cgr) * blockPred X lags predict st i :=
  ⟨fun p => growth_formula p cgr,
   forecastStep_Forecasts_getD X lags predict cgr st s i hi hF,
   forecastStep_Y_getD X lags predict cgr st s i hi hY⟩

def cw1X : ℕ → List ℚ := fun _ => []

def cw1predict : List ℚ → ℚ := fun _ => 2

def cw1st : LoopState := ⟨[0], List.replicate 12 0, 0⟩

/-- Witness for C1 at a concrete block state. -/
theorem C1_growth_adjusted_block_writes_witness :
    (forecastStep cw1X [] cw1predict 1 cw1st 0).Forecasts.getD (0 * Step_size + 0) 0 =
      (1 + 1) * blockPred cw1X [] cw1predict cw1st 0
    ∧ (forecastStep cw1X [] cw1predict 1 cw1st 0).Y.getD (cw1st.tr_Ind + 1 + 0) 0 =
      (1 + 1) * blockPred cw1X [] cw1predict cw1st 0 := by
  have h := C1_growth_adjusted_block_writes cw1X [] cw1predict 1 cw1st 0 0
    (by decide) (by decide) (by decide)
  exact ⟨h.2.1, h.2.2⟩

/-- C2: the lag set is obtained by ranking the lag indices in ascending
order of their raw (signed, not absolute) partial-autocorrelation value,
filtering to lags strictly greater than 12, and taking the first 5 in
that order; a shorter list simply yields a smaller set, no error. -/
theorem C2_lag_selection_rule (coeffs : List ℚ) :
    lagSelect coeffs = ((sortIdxAsc coeffs).filter (fun l => 12 < l)).take 5
    ∧ (lagSelect coeffs).length ≤ 5
    ∧ (∀ l ∈ lagSelect coeffs, 12 < l ∧ l < coeffs.length)
    ∧ (lagSelect coeffs).Pairwise (keyLE coeffs) := by
  refine ⟨rfl, ?_, ?_, ?_⟩
  · rw [lagSelect, List.length_take]
    exact Nat.min_le_left _ _
  · intro l hl
    have h1 := List.mem_of_mem_take hl
    have h2 := List.mem_filter.mp h1
    refine ⟨by simpa using h2.2, ?_⟩
    have h4 : l ∈ List.range coeffs.length := by
      have h3 := h2.1
      rw [sortIdxAsc] at h3
      exact (List.mem_insertionSort _).mp h3
    simpa using h4
  · have hs : (sortIdxAsc coeffs).Pairwise (keyLE coeffs) :=
      List.sorted_insertionSort (keyLE coeffs) (List.range coeffs.length)
    exact hs.sublist ((List.take_sublist _ _).trans (List.filter_sublist _))

/-- Witness for C2 at a concrete coefficient vector (shorter than 49, so
fewer than 5 lags survive and the smaller set is used without error). -/
theorem C2_lag_selection_rule_witness :
    (lagSelect [0, 1]).length ≤ 5
    ∧ (∀ l ∈ lagSelect [0, 1], 12 < l ∧ l < ([0, 1] : List ℚ).length) :=
  ⟨(C2_lag_selection_rule [0, 1]).2.1, (C2_lag_selection_rule [0, 1]).2.2.1⟩

/-- C4: when the horizon is not a multiple of 12, the run of
`nSteps = horizon / 12` blocks leaves a nonempty tail of the residual
array, and every tail position keeps its initial zero value before the
trend forecast is added. -/
theorem C4_partial_horizon_truncation (X : ℕ → List ℚ) (lags : List ℕ)
    (predict : List ℚ → ℚ) (cgr : ℚ) (Y0 : List ℚ) (tr0 h j : ℕ)
    (hmod : h % 12 ≠ 0) (hj : nSteps h * Step_size ≤ j) :
    nSteps h * Step_size < h
    ∧ (forecastRun X lags predict cgr ⟨Y0, List.replicate h 0, tr0⟩
        (nSteps h)).Forecasts.getD j 0 = 0 := by
  constructor
  · simp only [nSteps, Step_size]
    omega
  · rw [forecastRun_Forecasts_getD_of_le _ _ _ _ _ _ _ hj]
    exact getD_replicate_zero h j

/-- Witness for C4: horizon 18 runs exactly one block and keeps residual
position 12 (and the rest of the tail) at zero. -/
theorem C4_partial_horizon_truncation_witness :
    nSteps 18 = 1
    ∧ (nSteps 18 * Step_size < 18
      ∧ (forecastRun cw1X [] cw1predict 1 ⟨[0], List.replicate 18 0, 0⟩
          (nSteps 18)).Forecasts.getD 12 0 = 0) :=
  ⟨by decide,
   C4_partial_horizon_truncation cw1X [] cw1predict 1 [0] 0 18 12
     (by decide) (by decide)⟩

/-- C5: an autoregressive feature column for lag `L` has its first `L`
entries exactly zero, entry `r ≥ L` equal to the detrended value at
`r - L`, and in particular entry `L` equal to the detrended value at 0. -/
theorem C5_lag_column_padding (y : List ℚ) (L : ℕ) :
    (arColumn y L).length = y.length
    ∧ (∀ i, i < L → (arColumn y L).getD i 0 = 0)
    ∧ (∀ r, L ≤ r → r < y.length → (arColumn y L).getD r 0 = y.getD (r - L) 0)
    ∧ (L < y.length → (arColumn y L).getD L 0 = y.getD 0 0) := by
  refine ⟨length_arColumn y L, ?_, ?_, ?_⟩
  · intro i hiL
    rw [getD_arColumn, if_neg (fun hc => (Nat.not_le.mpr hiL) hc.1)]
  · intro r h1 h2
    rw [getD_arColumn, if_pos ⟨h1, h2⟩]
  · intro hL
    rw [getD_arColumn, if_pos ⟨le_refl L, hL⟩, Nat.sub_self]

/-- Witness for C5 at a concrete series and lag. -/
theorem C5_lag_column_padding_witness :
    (arColumn [5, 7] 1).getD 0 0 = 0
    ∧ (arColumn [5, 7] 1).getD 1 0 = ([5, 7] : List ℚ).getD 0 0 := by
  have h := C5_lag_column_padding [5, 7] 1
  exact ⟨h.2.1 0 (by decide), h.2.2.2 (by decide)⟩

/-- C8 (amended): within a single block computed from the same pre-block
state, a larger growth rate strictly increases the written residual value
at every position whose raw prediction is positive. -/
theorem C8_single_block_growth_monotone (X : ℕ → List ℚ) (lags : List ℕ)
    (predict : List ℚ → ℚ) (cgr cgr' : ℚ) (st : LoopState) (s i : ℕ)
    (hi : i < Step_size) (hF : s * Step_size + i < st.Forecasts.length)
    (hlt : cgr < cgr') (hp : 0 < blockPred X lags predict st i) :
    (forecastStep X lags predict cgr st s).Forecasts.getD (s * Step_size + i) 0 <
      (forecastStep X lags predict cgr' st s).Forecasts.getD (s * Step_size + i) 0 := by
  rw [forecastStep_Forecasts_getD _ _ _ _ _ _ _ hi hF,
    forecastStep_Forecasts_getD _ _ _ _ _ _ _ hi hF]
  exact mul_lt_mul_of_pos_right (by linarith) hp

/-- Witness for the amended C8 at a concrete block state. -/
theorem C8_single_block_growth_monotone_witness :
    (forecastStep cw1X [] cw1predict (1/4) cw1st 0).Forecasts.getD (0 * Step_size + 0) 0 <
      (forecastStep cw1X [] cw1predict (1/2) cw1st 0).Forecasts.getD (0 * Step_size + 0) 0 := by
  refine C8_single_block_growth_monotone cw1X [] cw1predict (1/4) (1/2) cw1st 0 0
    (by decide) (by decide) (by norm_num) ?_
  show (0:ℚ) < 2
  norm_num

/-- Adversarial regressor for the C8 counterexample: predicts 1 on small
lag features and 1/100 once the lag feature is at least 11/8. -/
def cexPredict : List ℚ → ℚ :=
  fun f => if (11/8 : ℚ) ≤ f.getD 0 0 then 1/100 else 1

def cexX : ℕ → List ℚ := fun _ => []

def cexInit : LoopState := ⟨[0], List.replicate 24 0, 0⟩

/-- State after the first block of the counterexample run. -/
def cexMid (cgr : ℚ) : LoopState := forecastStep cexX [13] cexPredict cgr cexInit 0

/-- The full two-block counterexample run. -/
def cexRun (cgr : ℚ) : LoopState := forecastRun cexX [13] cexPredict cgr cexInit 2

lemma cex_blockPred_init (i : ℕ) (hi : i < 12) :
    blockPred cexX [13] cexPredict cexInit i = 1 := by
  rw [blockPred, featRow]
  simp only [cexX, List.nil_append, List.map_cons, List.map_nil]
  rw [getD_arColumn, if_neg (by simp [cexInit]; omega)]
  rw [cexPredict]
  norm_num

lemma cex_mid_Y1 (cgr : ℚ) : (cexMid cgr).Y.getD 1 0 = 1 + cgr := by
  rw [cexMid, show (1:ℕ) = cexInit.tr_Ind + 1 + 0 from rfl]
  rw [forecastStep_Y_getD _ _ _ _ _ _ _ (by decide) (by decide)]
  rw [cex_blockPred_init 0 (by decide)]
  ring

lemma cex_blockPred_mid (cgr : ℚ) :
    blockPred cexX [13] cexPredict (cexMid cgr) 1 =
      if (11/8 : ℚ) ≤ 1 + cgr then 1/100 else 1 := by
  rw [blockPred, featRow]
  simp only [cexX, List.nil_append, List.map_cons, List.map_nil]
  have htr : (cexMid cgr).tr_Ind + 1 + 1 = 14 := by
    rw [cexMid, forecastStep_tr_Ind]
    rfl
  have hlen : ((cexMid cgr).Y ++ List.replicate Step_size (0:ℚ)).length = 25 := by
    rw [List.length_append, List.length_replicate, cexMid, forecastStep_Y_length]
    rfl
  rw [htr, getD_arColumn, if_pos ⟨by norm_num, by rw [hlen]; norm_num⟩]
  rw [show (14:ℕ) - 13 = 1 from rfl, getD_append_replicate_zero, cex_mid_Y1]
  rw [cexPredict]
  simp

lemma cex_run_getD (cgr : ℚ) :
    (cexRun cgr).Forecasts.getD 13 0 =
      (1 + cgr) * (if (11/8 : ℚ) ≤ 1 + cgr then 1/100 else 1) := by
  have h2 : cexRun cgr = forecastStep cexX [13] cexPredict cgr (cexMid cgr) 1 := by
    rw [cexRun, show (2:ℕ) = 1 + 1 from rfl, forecastRun_succ, forecastRun_succ,
      forecastRun_zero, cexMid]
  have hF : 1 * Step_size + 1 < (cexMid cgr).Forecasts.length := by
    rw [cexMid, forecastStep_Forecasts_length]
    decide
  have h3 := forecastStep_Forecasts_getD cexX [13] cexPredict cgr (cexMid cgr) 1 1
    (by decide) hF
  rw [show (1:ℕ) * Step_size + 1 = 13 from rfl] at h3
  rw [h2, h3, cex_blockPred_mid]

/-- Counterexample to C8 as stated: with growth rates 1/4 < 1/2 and a
regressor whose block-2 raw predictions are positive under both runs, the
growth-adjusted values written by block 1 feed back into the lag features
and make the block-2 residual forecast at position 13 strictly smaller
under the larger growth rate. -/
theorem C8_growth_monotonicity_counterexample :
    (1/4 : ℚ) < 1/2
    ∧ 0 < blockPred cexX [13] cexPredict (cexMid (1/4)) 1
    ∧ 0 < blockPred cexX [13] cexPredict (cexMid (1/2)) 1
    ∧ (cexRun (1/2)).Forecasts.getD 13 0 < (cexRun (1/4)).Forecasts.getD 13 0 := by
  refine ⟨by norm_num, ?_, ?_, ?_⟩
  · rw [cex_blockPred_mid]
    norm_num
  · rw [cex_blockPred_mid]
    norm_num
  · rw [cex_run_getD, cex_run_getD]
    norm_num

/-- Target series for the C3 counterexample: raw coefficients at lags 13
and 14 are 2 and 3, so raw ranking puts 13 before 14. -/
def cexT3 : List ℚ := [0, 0, 0, 0, 0, 0, 0, 0, 0, 0, 0, 0, 0, 2, 3]

/-- Oracles for the C3 counterexample: pacf is the identity, the STL
trend is 4 at position 14 and 0 elsewhere, so the detrended coefficients
at lags 13 and 14 are 2 and -1 and their ranking flips. -/
def cexO3 : Oracles :=
  ⟨fun l => l,
   fun l => (List.range l.length).map (fun i => if i = 14 then 4 else 0),
   fun _ _ => fun _ => 0,
   fun _ n => List.replicate n 0⟩

/-- Counterexample to C3 as stated: the lag set the code computes (pacf of
the raw training target, line 78, before the detrending of line 89)
differs from the lag set the spec describes (pacf of the detrended
training target) at a concrete input. -/
theorem C3_pacf_detrended_counterexample :
    ImpLags1_of cexO3 cexT3 14 ≠ ImpLags1_specDetrended cexO3 cexT3 14 := by
  have h1 : ImpLags1_of cexO3 cexT3 14 = [13, 14] := by
    norm_num [ImpLags1_of, cexO3, cexT3, lagSelect, sortIdxAsc, keyLE, List.range_succ]
  have h2 : ImpLags1_specDetrended cexO3 cexT3 14 = [14, 13] := by
    norm_num [ImpLags1_specDetrended, cexO3, cexT3, lagSelect, sortIdxAsc, keyLE,
      List.range_succ]
  rw [h1, h2]
  decide

/-- C3 (amended): the partial autocorrelation that ranks the candidate
lags is computed over the raw training target, before the STL trend is
subtracted — the lag set is independent of the trend oracle, and the
whole pipeline output depends on the pacf oracle only through its value
on the raw training window. -/
theorem C3_pacf_on_raw_target (O : Oracles) (p t : List ℚ → List ℚ)
    (Target : List ℚ) (X : ℕ → List ℚ) (climDates : List String) (h : ℕ)
    (Traindate : String) (cgr : ℚ) (tr : ℕ)
    (hlook : tr_Ind_lookup climDates Traindate = some tr)
    (hagree : O.pacfFn (Target.take (tr + 1)) = p (Target.take (tr + 1))) :
    ImpLags1_of { O with stlTrendFn := t } Target tr = ImpLags1_of O Target tr
    ∧ Forecasting_Func O Target X climDates h Traindate cgr =
        Forecasting_Func { O with pacfFn := p } Target X climDates h Traindate cgr := by
  constructor
  · rfl
  · unfold Forecasting_Func
    rw [hlook]
    simp only [ImpLags1_of, hagree]

/-- Witness for the amended C3 at concrete oracles and data. -/
theorem C3_pacf_on_raw_target_witness :
    ImpLags1_of { cexO3 with stlTrendFn := fun _ => [] } cexT3 0 =
      ImpLags1_of cexO3 cexT3 0
    ∧ Forecasting_Func cexO3 cexT3 cw1X ["d"] 1 "d" 1 =
        Forecasting_Func { cexO3 with pacfFn := fun l => l } cexT3 cw1X ["d"] 1 "d" 1 :=
  C3_pacf_on_raw_target cexO3 (fun l => l) (fun _ => []) cexT3 cw1X ["d"] 1 "d" 1 0
    (by decide) rfl

/-- C9: a per-column forecasting call leaves the target table and the
climate covariate table untouched, so every later column reads exactly
the same input data. -/
theorem C9_input_tables_unchanged (O : Oracles) (var : String) (h : ℕ)
    (Traindate : String) (cgr : ℚ) (st : RunState) :
    (Forecasting_FuncS O var h Traindate cgr st).2 = st
    ∧ (∀ (var2 : String) (h2 : ℕ) (T2 : String) (c2 : ℚ),
        (Forecasting_FuncS O var2 h2 T2 c2
          ((Forecasting_FuncS O var h Traindate cgr st).2)).1 =
        (Forecasting_FuncS O var2 h2 T2 c2 st).1) :=
  ⟨rfl, fun _ _ _ _ => rfl⟩

/-! Support lemmas for the script-level claims. -/

/-- Default date used with `getD` on date lists. -/
def someDate : MDate := ⟨0, 1, 1⟩

lemma monthIndex_monthStart (k : ℕ) : monthIndex (monthStart k) = k := by
  simp only [monthIndex, monthStart, Nat.add_sub_cancel]
  omega

lemma length_TestDates (td : MDate) (h : ℕ) : (TestDates td h).length = h := by
  simp [TestDates]

lemma TestDates_getD (td : MDate) (h i : ℕ) (hi : i < h) :
    (TestDates td h).getD i someDate = monthStart (monthIndex td + 1 + i) := by
  simp only [TestDates]
  rw [List.getD_eq_getElem?_getD, List.getElem?_map, List.getElem?_range hi]
  simp [monthIndex_monthStart]

lemma scriptColumns_cons (O : Oracles) (t : String × List ℚ)
    (ts : List (String × List ℚ)) (X : ℕ → List ℚ) (climDates : List String)
    (h : ℕ) (Traindate : String) (cgr : ℚ) :
    scriptColumns O (t :: ts) X climDates h Traindate cgr =
      match Forecasting_Func O t.2 X climDates h Traindate cgr,
          scriptColumns O ts X climDates h Traindate cgr with
        | some f, some rest => some ((t.1, f) :: rest)
        | _, _ => none := rfl

lemma scriptColumns_map_fst (O : Oracles) (targets : List (String × List ℚ))
    (X : ℕ → List ℚ) (climDates : List String) (h : ℕ) (Traindate : String)
    (cgr : ℚ) (cols : List (String × List ℚ))
    (hc : scriptColumns O targets X climDates h Traindate cgr = some cols) :
    cols.map Prod.fst = targets.map Prod.fst := by
  induction targets generalizing cols with
  | nil =>
    obtain rfl : cols = [] := by simpa [scriptColumns] using hc.symm
    rfl
  | cons t ts ih =>
    rw [scriptColumns_cons] at hc
    cases hFF : Forecasting_Func O t.2 X climDates h Traindate cgr with
    | none =>
      rw [hFF] at hc
      exact absurd hc (by simp)
    | some f =>
      cases hsc : scriptColumns O ts X climDates h Traindate cgr with
      | none =>
        rw [hFF, hsc] at hc
        exact absurd hc (by simp)
      | some rest =>
        rw [hFF, hsc] at hc
        obtain rfl : (t.1, f) :: rest = cols := by simpa using hc
        simp [ih rest hsc]

lemma tr_Ind_lookup_eq_none (dates : List String) (s : String)
    (hmiss : ∀ d ∈ dates, d ≠ s) : tr_Ind_lookup dates s = none := by
  rw [tr_Ind_lookup]
  have hfil : (List.range dates.length).filter (fun i => dates.getD i "" = s) = [] := by
    rw [List.filter_eq_nil_iff]
    intro i hi
    have hlt : i < dates.length := List.mem_range.mp hi
    have hmem : dates.getD i "" ∈ dates := by
      rw [List.getD_eq_getElem?_getD, List.getElem?_eq_getElem hlt]
      exact List.getElem_mem hlt
    simpa using hmiss _ hmem
  rw [hfil]

lemma zipWith_add_replicate_zero (l : List ℚ) :
    ∀ n, l.length = n →
      List.zipWith (fun a b => a + b) (List.replicate n (0:ℚ)) l = l := by
  induction l with
  | nil =>
    intro n hn
    subst hn
    rfl
  | cons x xs ih =>
    intro n hn
    subst hn
    rw [List.length_cons, List.replicate_succ, List.zipWith_cons_cons, zero_add,
      ih xs.length rfl]

/-- C6: a successful script run produces a table with exactly `horizon`
date rows, all first-of-month, consecutive, starting the month after the
train-cutoff date, with one value column per target category. -/
theorem C6_forecast_table_shape (O : Oracles) (targets : List (String × List ℚ))
    (X : ℕ → List ℚ) (climDates : List String) (h : ℕ) (Traindate : String)
    (td : MDate) (cgr : ℚ) (out : List MDate × List (String × List ℚ))
    (hpos : 0 < h)
    (hrun : scriptRun O targets X climDates h Traindate td cgr = some out) :
    out.1.length = h
    ∧ (∀ i, i < h → (out.1.getD i someDate).day = 1)
    ∧ monthIndex (out.1.getD 0 someDate) = monthIndex td + 1
    ∧ (∀ i, i + 1 < h →
        monthIndex (out.1.getD (i + 1) someDate) =
          monthIndex (out.1.getD i someDate) + 1)
    ∧ out.2.map Prod.fst = targets.map Prod.fst := by
  obtain ⟨cols, hcols, hout⟩ := Option.map_eq_some'.mp hrun
  obtain rfl : (TestDates td h, cols) = out := hout
  refine ⟨length_TestDates td h, ?_, ?_, ?_,
    scriptColumns_map_fst O targets X climDates h Traindate cgr cols hcols⟩
  · intro i hi
    rw [TestDates_getD td h i hi]
    rfl
  · rw [TestDates_getD td h 0 hpos, monthIndex_monthStart]
  · intro i hi
    rw [TestDates_getD td h (i + 1) hi, TestDates_getD td h i (by omega),
      monthIndex_monthStart, monthIndex_monthStart]
    omega

/-- Oracles for the C6 and C10 witnesses. -/
def cwO : Oracles :=
  ⟨fun l => l, fun l => l.map (fun _ => 0), fun _ _ => fun _ => 0,
   fun _ n => List.replicate n 2⟩

lemma cw6_FF : Forecasting_Func cwO [3] cw1X ["d"] 1 "d" 1 = some [2] := by
  unfold Forecasting_Func
  rw [show tr_Ind_lookup ["d"] "d" = some 0 from by decide]
  norm_num [cwO, nSteps, Step_size, forecastRun]

lemma cw6_run :
    scriptRun cwO [("L1", [3])] cw1X ["d"] 1 "d" ⟨2025, 3, 1⟩ 1 =
      some (TestDates ⟨2025, 3, 1⟩ 1, [("L1", [2])]) := by
  have hsc : scriptColumns cwO [("L1", [3])] cw1X ["d"] 1 "d" 1 =
      some [("L1", [2])] := by
    rw [scriptColumns_cons, cw6_FF]
    rfl
  rw [scriptRun, hsc]
  rfl

/-- Witness for C6 at a concrete one-column run with horizon 1. -/
theorem C6_forecast_table_shape_witness :
    (TestDates ⟨2025, 3, 1⟩ 1, [("L1", ([2] : List ℚ))]).1.length = 1
    ∧ (∀ i, i < 1 →
        ((TestDates ⟨2025, 3, 1⟩ 1, [("L1", ([2] : List ℚ))]).1.getD i someDate).day = 1)
    ∧ monthIndex ((TestDates ⟨2025, 3, 1⟩ 1,
        [("L1", ([2] : List ℚ))]).1.getD 0 someDate) = monthIndex ⟨2025, 3, 1⟩ + 1
    ∧ (∀ i, i + 1 < 1 →
        monthIndex ((TestDates ⟨2025, 3, 1⟩ 1,
          [("L1", ([2] : List ℚ))]).1.getD (i + 1) someDate) =
          monthIndex ((TestDates ⟨2025, 3, 1⟩ 1,
            [("L1", ([2] : List ℚ))]).1.getD i someDate) + 1)
    ∧ (TestDates ⟨2025, 3, 1⟩ 1, [("L1", ([2] : List ℚ))]).2.map Prod.fst =
        [("L1", ([3] : List ℚ))].map Prod.fst :=
  C6_forecast_table_shape cwO [("L1", [3])] cw1X ["d"] 1 "d" ⟨2025, 3, 1⟩ 1
    (TestDates ⟨2025, 3, 1⟩ 1, [("L1", [2])]) (by decide) cw6_run

/-- C7: when the train-cutoff date string matches no entry of the climate
date column, the first per-column call fails and the script dies before
writing any output file (the `some` payload standing for the written
file never materialises). -/
theorem C7_missing_train_date_aborts (O : Oracles) (t : String × List ℚ)
    (ts : List (String × List ℚ)) (X : ℕ → List ℚ) (climDates : List String)
    (h : ℕ) (Traindate : String) (td : MDate) (cgr : ℚ)
    (hmiss : ∀ d ∈ climDates, d ≠ Traindate) :
    scriptRun O (t :: ts) X climDates h Traindate td cgr = none := by
  have hFF : Forecasting_Func O t.2 X climDates h Traindate cgr = none := by
    unfold Forecasting_Func
    rw [tr_Ind_lookup_eq_none climDates Traindate hmiss]
  rw [scriptRun, scriptColumns_cons, hFF]
  rfl

/-- Witness for C7 at a concrete missing train date. -/
theorem C7_missing_train_date_aborts_witness :
    scriptRun cwO [("L1", ([1] : List ℚ))] cw1X ["x"] 5 "y" someDate 1 = none :=
  C7_missing_train_date_aborts cwO ("L1", [1]) [] cw1X ["x"] 5 "y" someDate 1
    (by decide)

/-- C10: for a horizon between 1 and 11 no recursive block runs, the
residual array stays entirely zero, and the final forecast equals the
extrapolated trend forecast exactly. -/
theorem C10_short_horizon_trend_only (O : Oracles) (Target : List ℚ)
    (X : ℕ → List ℚ) (climDates : List String) (h : ℕ) (Traindate : String)
    (cgr : ℚ) (tr : ℕ) (h1 : 1 ≤ h) (h2 : h ≤ 11)
    (hlook : tr_Ind_lookup climDates Traindate = some tr)
    (hlen : (O.stlHoltForecast
        (ewm (2/13) (ewm (2/7) (O.stlTrendFn (Target.take (tr + 1))))) h).length = h) :
    nSteps h = 0
    ∧ (∀ (lags : List ℕ) (predict : List ℚ → ℚ) (st : LoopState),
        forecastRun X lags predict cgr st (nSteps h) = st)
    ∧ Forecasting_Func O Target X climDates h Traindate cgr =
        some (O.stlHoltForecast
          (ewm (2/13) (ewm (2/7) (O.stlTrendFn (Target.take (tr + 1))))) h) := by
  have h0 : nSteps h = 0 := by
    rw [nSteps]
    exact Nat.div_eq_of_lt (by simp only [Step_size]; omega)
  refine ⟨h0, fun lags predict st => by rw [h0]; rfl, ?_⟩
  unfold Forecasting_Func
  rw [hlook]
  simp only [h0, forecastRun_zero]
  rw [zipWith_add_replicate_zero _ h hlen]

/-- Witness for C10 at a concrete horizon-6 run. -/
theorem C10_short_horizon_trend_only_witness :
    nSteps 6 = 0
    ∧ Forecasting_Func cwO [3] cw1X ["d"] 6 "d" 1 =
        some (cwO.stlHoltForecast
          (ewm (2/13) (ewm (2/7) (cwO.stlTrendFn (([3] : List ℚ).take (0 + 1))))) 6) :=
  ⟨(C10_short_horizon_trend_only cwO [3] cw1X ["d"] 6 "d" 1 0 (by decide) (by decide)
      (by decide) rfl).1,
   (C10_short_horizon_trend_only cwO [3] cw1X ["d"] 6 "d" 1 0 (by decide) (by decide)
      (by decide) rfl).2.2⟩

end Kuppam
